import Mathlib

/-!
Verification model of dnsup (github.com/msantos/dnsup), a dynamic DNS client
that monitors interface addresses and publishes them via a DNS provider API.

The development shallowly embeds the Go source (`main.go` of the v0.1.1
variant):

* the pieces of Go's `net` standard library that the program depends on
  (`net.IP`, `IP.To4`, `net.ParseIP`, `IP.String`), translated from the Go
  runtime sources of the era (go1.16 `net/ip.go`);
* the program's own functions: `strategy`, `toIf`, `resolv`, `publish`,
  and the per-task poll loop `run` together with the supervisor `main`.

External effects (DNS lookups, address enumeration, HTTP requests,
`time.ParseDuration`) are passed in as oracle functions, so every definition
is executable, and theorems quantify over all possible environments.
-/

namespace Dnsup

/-! ## Go `net` standard library model

A `net.IP` is a byte slice; we model it as `List Nat` with each entry a byte.
-/

/-- Go `net.IP`: a byte slice, length 4 or 16 for well-formed addresses. -/
abbrev IP := List Nat

/-- go1.16 net/ip.go `v4InV6Prefix`: prefix of an IPv4-mapped IPv6 address. -/
def v4InV6 : List Nat := [0, 0, 0, 0, 0, 0, 0, 0, 0, 0, 0xff, 0xff]

/-- go1.16 net/ip.go `IPv4(a, b, c, d)`: the 16-byte form of an IPv4 address. -/
def mkIPv4 (a b c d : Nat) : IP := v4InV6 ++ [a, b, c, d]

/-- go1.16 net/ip.go `IP.To4`: the 4-byte form of an IP, or `none` (Go `nil`)
when the address is not IPv4. -/
def To4 (ip : IP) : Option IP :=
  if ip.length = 4 then some ip
  else if ip.length = 16 ∧ ip.take 12 = v4InV6 then some (ip.drop 12)
  else none

/-- go1.16 net/ip.go `big`: overflow bound used by `dtoi`/`xtoi`. -/
def bigN : Nat := 0xFFFFFF

/-- go1.16 net/parse.go `dtoi`: parse a decimal prefix, returning
(value, characters consumed, ok). -/
def dtoiAux : List Char → Nat → Nat → Nat × Nat × Bool
  | [], n, i => if i = 0 then (0, 0, false) else (n, i, true)
  | c :: rest, n, i =>
    if '0' ≤ c ∧ c ≤ '9' then
      let n' := n * 10 + (c.toNat - '0'.toNat)
      if n' ≥ bigN then (bigN, i, false)
      else dtoiAux rest n' (i + 1)
    else if i = 0 then (0, 0, false) else (n, i, true)

/-- go1.16 net/parse.go `dtoi` entry point. -/
def dtoi (s : List Char) : Nat × Nat × Bool := dtoiAux s 0 0

/-- Value of a hex digit character, or `none`. -/
def hexVal (c : Char) : Option Nat :=
  if '0' ≤ c ∧ c ≤ '9' then some (c.toNat - '0'.toNat)
  else if 'a' ≤ c ∧ c ≤ 'f' then some (c.toNat - 'a'.toNat + 10)
  else if 'A' ≤ c ∧ c ≤ 'F' then some (c.toNat - 'A'.toNat + 10)
  else none

/-- go1.16 net/parse.go `xtoi`: parse a hexadecimal prefix, returning
(value, characters consumed, ok). -/
def xtoiAux : List Char → Nat → Nat → Nat × Nat × Bool
  | [], n, i => if i = 0 then (0, i, false) else (n, i, true)
  | c :: rest, n, i =>
    match hexVal c with
    | some v =>
      let n' := n * 16 + v
      if n' ≥ bigN then (0, i, false)
      else xtoiAux rest n' (i + 1)
    | none => if i = 0 then (0, i, false) else (n, i, true)

/-- go1.16 net/parse.go `xtoi` entry point. -/
def xtoi (s : List Char) : Nat × Nat × Bool := xtoiAux s 0 0

/-- go1.16 net/ip.go `parseIPv4` field loop: `fields` fields remain, `first`
is true before the first field (no leading dot expected). Accumulates parsed
bytes in `acc`; returns the 16-byte `IPv4` form on success. -/
def parseIPv4Fields : Nat → Bool → List Char → List Nat → Option IP
  | 0, _, s, acc => if s.isEmpty then some (v4InV6 ++ acc) else none
  | fuel + 1, first, s, acc =>
    if s.isEmpty then none
    else
      let s' : Option (List Char) :=
        if first then some s
        else match s with
          | '.' :: r => some r
          | _ => none
      match s' with
      | none => none
      | some s1 =>
        let (n, c, ok) := dtoi s1
        if ¬ ok ∨ n > 0xFF then none
        else parseIPv4Fields fuel false (s1.drop c) (acc ++ [n])

/-- go1.16 net/ip.go `parseIPv4`. -/
def parseIPv4 (s : List Char) : Option IP := parseIPv4Fields 4 true s []

/-- go1.16 net/ip.go `parseIPv6` main loop. `acc` holds the bytes written so
far (Go's index `i` is `acc.length`), `ell` the ellipsis byte position if one
was seen. Returns the accumulated bytes and ellipsis position when the loop
exits (break or `i` reaching 16 with the rest of the input empty), `none` on
any parse failure. `fuel` bounds the iteration count; each Go iteration
consumes at least two of the sixteen byte slots, so fuel 8 is never
exhausted. -/
def parseIPv6Loop : Nat → List Char → List Nat → Option Nat → Option (List Nat × Option Nat)
  | fuel, s, acc, ell =>
    if acc.length ≥ 16 then
      if s.isEmpty then some (acc, ell) else none
    else
      match fuel with
      | 0 => none
      | fuel' + 1 =>
        let (n, c, ok) := xtoi s
        if ¬ ok ∨ n > 0xFFFF then none
        else if c < s.length ∧ s.get? c = some '.' then
          -- trailing IPv4 in the last 32 bits
          if ell = none ∧ acc.length ≠ 12 then none
          else if acc.length + 4 > 16 then none
          else
            match parseIPv4 s with
            | none => none
            | some ip4 => some (acc ++ ip4.drop 12, ell)
        else
          let acc' := acc ++ [n / 256, n % 256]
          let s1 := s.drop c
          if s1.isEmpty then some (acc', ell)
          else
            match s1 with
            | ':' :: s2 =>
              if s2.isEmpty then none
              else
                match s2 with
                | ':' :: s3 =>
                  if ell ≠ none then none
                  else if s3.isEmpty then some (acc', some acc'.length)
                  else parseIPv6Loop fuel' s3 acc' (some acc'.length)
                | _ => parseIPv6Loop fuel' s2 acc' ell
            | _ => none

/-- go1.16 net/ip.go `parseIPv6` epilogue: expand the ellipsis (insert the
missing zero bytes at its position), rejecting an ellipsis that stands for no
group and a short address without one. -/
def parseIPv6Finish : Option (List Nat × Option Nat) → Option IP
  | none => none
  | some (acc, ell) =>
    if acc.length < 16 then
      match ell with
      | none => none
      | some e => some (acc.take e ++ List.replicate (16 - acc.length) 0 ++ acc.drop e)
    else if ell ≠ none then none
    else some acc

/-- go1.16 net/ip.go `parseIPv6` (handling the possible leading `::`). -/
def parseIPv6 (s : List Char) : Option IP :=
  match s with
  | ':' :: ':' :: rest =>
    if rest.isEmpty then some (List.replicate 16 0)
    else parseIPv6Finish (parseIPv6Loop 8 rest [] (some 0))
  | _ => parseIPv6Finish (parseIPv6Loop 8 s [] none)

/-- go1.16 net/ipsock.go `splitHostZone`: strip an IPv6 scoped-addressing
zone (everything after the last `%`, when that `%` is not the first
character). -/
def splitHostZone (s : List Char) : List Char :=
  let rev := s.reverse
  let j := rev.indexOf '%'
  if j < s.length then
    let i := s.length - 1 - j
    if i > 0 then s.take i else s
  else s

/-- go1.16 net/ip.go `ParseIP`: scan for the first `.` or `:`; dispatch to
the IPv4 or IPv6 (with zone) grammar; `none` models Go's `nil` result. -/
def parseIPScan : List Char → List Char → Option IP
  | [], _ => none
  | c :: rest, full =>
    if c = '.' then parseIPv4 full
    else if c = ':' then parseIPv6 (splitHostZone full)
    else parseIPScan rest full

/-- go1.16 net/ip.go `ParseIP` on a Lean `String`. -/
def ParseIP (s : String) : Option IP := parseIPScan s.toList s.toList

/-- net/ip.go `hexDigit`, the string "0123456789abcdef" as a character list. -/
def hexDigit : List Char :=
  (List.range 16).map fun i =>
    if i < 10 then Char.ofNat ('0'.toNat + i) else Char.ofNat ('a'.toNat + i - 10)

/-- Decimal digits of `n` (net/parse.go `uitoa` / net/ip.go `ubtoa`). -/
def uitoaAux : Nat → Nat → List Char
  | 0, _ => []
  | fuel + 1, n =>
    if n < 10 then [Char.ofNat ('0'.toNat + n)]
    else uitoaAux fuel (n / 10) ++ [Char.ofNat ('0'.toNat + n % 10)]

/-- Decimal rendering of a byte value. -/
def uitoa (n : Nat) : List Char := uitoaAux (n + 1) n

/-- go1.16 net/ip.go `appendHex`: lowercase hex of a 16-bit group without
leading zeros (a lone `0` for zero). -/
def appendHexDigits (i : Nat) : List Char :=
  if i = 0 then ['0']
  else
    (List.range 8).reverse.filterMap fun j =>
      let v := i >>> (j * 4)
      if v > 0 then some (hexDigit.getD (v % 16) '0') else none

/-- net/parse.go `hexString`: two lowercase hex digits per byte. -/
def hexString (b : List Nat) : List Char :=
  b.flatMap fun tn => [hexDigit.getD ((tn >>> 4) % 16) '0', hexDigit.getD (tn % 16) '0']

/-- The 16-bit groups of a 16-byte IPv6 address. -/
def groupsOf (ip : IP) : List Nat :=
  (List.range 8).map fun k => ip.getD (2 * k) 0 * 256 + ip.getD (2 * k + 1) 0

/-- Length of the run of zero groups starting at group index `i`. -/
def zeroRunAt (g : List Nat) (i : Nat) : Nat :=
  ((g.drop i).takeWhile (· = 0)).length

/-- go1.16 net/ip.go `IP.String` zero-run search: the leftmost longest run of
zero groups, provided it spans at least two groups (`::` must not shorten a
single group). Returns (start group, length in groups). -/
def bestZeroRun (g : List Nat) : Option (Nat × Nat) :=
  let cands := (List.range g.length).map fun i => (i, zeroRunAt g i)
  let best := cands.foldl (fun (b : Nat × Nat) c => if c.2 > b.2 then c else b) (0, 0)
  if best.2 ≤ 1 then none else some best

/-- go1.16 net/ip.go `IP.String`: dotted decimal for addresses with a 4-byte
form, RFC 5952-style compressed hex for 16-byte addresses, `?`-prefixed raw
hex for other lengths, `<nil>` for the empty address. -/
def ipString (ip : IP) : String :=
  if ip.isEmpty then "<nil>"
  else
    match To4 ip with
    | some p4 => String.mk (List.intercalate ['.'] (p4.map uitoa))
    | none =>
      if ip.length ≠ 16 then String.mk ('?' :: hexString ip)
      else
        let g := groupsOf ip
        match bestZeroRun g with
        | none => String.mk (List.intercalate [':'] (g.map appendHexDigits))
        | some (e0, len) =>
          String.mk
            (List.intercalate [':'] ((g.take e0).map appendHexDigits) ++
              [':', ':'] ++
              List.intercalate [':'] ((g.drop (e0 + len)).map appendHexDigits))

/-! ## The dnsup program (main.go, v0.1.1)

External effects appear as oracle parameters:

* `lookup : IP → List String × Option GoError` — the reflection query
  `argv.lookup(ctx, &r)` issued through the per-candidate resolver `r`
  (whose `Dial` binds the candidate as the UDP source address under
  `resolv4`); the candidate is the argument because the query's outcome
  depends on it.
* `pd : String → Int × Option GoError` — `time.ParseDuration`
  (a duration is an `Int` count of nanoseconds).
* `newRequest`, `doRequest` — `http.NewRequestWithContext` and
  `http.Client.Do` plus `ioutil.ReadAll` of the response body.
* a tick's `ipaddrR` — the result of `ipaddr(ift.name)`, the OS
  interface-address enumeration.
-/

/-- The `Strategy` enumeration (main.go lines 33-41); `inet4` is the zero
value a `ifT` literal leaves in place when no strategy field is given. -/
inductive Strategy where
  | inet4
  | inet6
  | resolv4
  | resolv6
deriving DecidableEq, Repr

/-- The program's error values: the four `errors.New` sentinels of
main.go lines 72-77 (`errInvalidStrategy` and `errInvalidSpecification`
carrying the offending token per the `fmt.Errorf("%w: %s", ...)` wrapping),
plus `goErr` for errors produced by the Go runtime and the network
(enumeration failures, lookup failures, HTTP failures, duration parse
failures), identified by their message. -/
inductive GoError where
  | noValidAddresses
  | invalidAddress
  | invalidStrategy (tok : String)
  | invalidSpecification (spec : String)
  | goErr (msg : String)
deriving DecidableEq, Repr

/-- `ifT` (main.go lines 43-48): one monitoring task. `interval` is a
`time.Duration` in nanoseconds. -/
structure IfT where
  name : String
  label : String
  strategy : Strategy
  interval : Int
deriving DecidableEq, Repr

/-- `argvT` (main.go lines 50-61) without the two `*log.Logger` fields
(logging carries no data the model observes). -/
structure ArgvT where
  iface : List IfT
  domain : String
  apikey : String
  service : String
  ttl : Int
  pollInterval : Int
  dryrun : Bool
  verbose : Int
deriving DecidableEq, Repr

/-- `strategy` (main.go lines 79-96): map a token to a `Strategy`; the
switch's default case returns `inet4` together with the wrapped
`errInvalidStrategy`. -/
def strategy (str : String) : Strategy × Option GoError :=
  if str = "inet" ∨ str = "inet4" then (.inet4, none)
  else if str = "inet6" then (.inet6, none)
  else if str = "resolv" ∨ str = "resolv4" then (.resolv4, none)
  else if str = "resolv6" then (.resolv6, none)
  else (.inet4, some (.invalidStrategy str))

/-- Go `strings.Split` with a one-character separator: cut the character
list at every occurrence of `sep`; the result always has one more part than
there are separators (`Split("", sep)` is `[""]`). -/
def splitCh (sep : Char) : List Char → List (List Char)
  | [] => [[]]
  | c :: rest =>
    match splitCh sep rest with
    | [] => [[]]
    | p :: ps => if c = sep then [] :: p :: ps else (c :: p) :: ps

/-- `strings.Split(v, sep)` on Lean strings, for a one-character separator. -/
def stringSplit (v : String) (sep : Char) : List String :=
  (splitCh sep v.toList).map String.mk

/-- `toIf` (main.go lines 98-130): parse the colon-delimited task
specifications. On an error the Go loop returns the tasks accumulated so
far together with the error, which the recursion reproduces ceteris
paribus: earlier elements are consed on, the failing element contributes
`([], some e)`. `pd` stands for `time.ParseDuration`. -/
def toIf (pd : String → Int × Option GoError) (interval : Int) :
    List String → List IfT × Option GoError
  | [] => ([], none)
  | v :: rest =>
    match stringSplit v ':' with
    | [n] =>
      let r := toIf pd interval rest
      (⟨n, n, .inet4, interval⟩ :: r.1, r.2)
    | [n, l] =>
      let r := toIf pd interval rest
      (⟨n, l, .inet4, interval⟩ :: r.1, r.2)
    | [n, l, st] =>
      match strategy st with
      | (_, some e) => ([], some e)
      | (s, none) =>
        let r := toIf pd interval rest
        (⟨n, l, s, interval⟩ :: r.1, r.2)
    | [n, l, st, iv] =>
      match strategy st with
      | (_, some e) => ([], some e)
      | (s, none) =>
        match pd iv with
        | (_, some e) => ([], some e)
        | (d, none) =>
          let r := toIf pd interval rest
          (⟨n, l, s, d⟩ :: r.1, r.2)
    | _ => ([], some (.invalidSpecification v))

/-- The candidate loop of `resolv` (main.go lines 298-364): `inet4` accepts
the first candidate with a 4-byte form (`a.To4() != nil`) and returns
`a.String()`; `inet6` accepts the first without one; `resolv4`/`resolv6`
query the reflection service per candidate, skipping on a query error, an
empty answer list, or a first answer `net.ParseIP` rejects; a candidate
list exhausted without success yields `errNoValidAddresses`. -/
def resolvLoop (strat : Strategy) (lookup : IP → List String × Option GoError) :
    List IP → String × Option GoError
  | [] => ("", some .noValidAddresses)
  | a :: rest =>
    match strat with
    | .inet4 =>
      if To4 a = none then resolvLoop strat lookup rest
      else (ipString a, none)
    | .inet6 =>
      if To4 a ≠ none then resolvLoop strat lookup rest
      else (ipString a, none)
    | .resolv4 | .resolv6 =>
      match lookup a with
      | (_, some _) => resolvLoop strat lookup rest
      | (ipaddr, none) =>
        if ipaddr.isEmpty then resolvLoop strat lookup rest
        else if ParseIP (ipaddr.headD "") = none then resolvLoop strat lookup rest
        else (ipaddr.headD "", none)

/-- `resolv` (main.go lines 294-365): an empty candidate list returns
`("", nil)` before the loop; otherwise the candidate loop runs. -/
def resolv (strat : Strategy) (lookup : IP → List String × Option GoError)
    (addr : List IP) : String × Option GoError :=
  if addr.isEmpty then ("", none) else resolvLoop strat lookup addr

/-- Instrumentation of the same traversal as `resolvLoop`: the candidates on
which `resolv` invokes the reflection `lookup`, in order. The `inet`
strategies never invoke it. -/
def resolvQueried (strat : Strategy) (lookup : IP → List String × Option GoError) :
    List IP → List IP
  | [] => []
  | a :: rest =>
    match strat with
    | .inet4 | .inet6 => []
    | .resolv4 | .resolv6 =>
      match lookup a with
      | (_, some _) => a :: resolvQueried strat lookup rest
      | (ipaddr, none) =>
        if ipaddr.isEmpty then a :: resolvQueried strat lookup rest
        else if ParseIP (ipaddr.headD "") = none then a :: resolvQueried strat lookup rest
        else [a]

/-- The external inputs one iteration of `run`'s ticker loop can consume:
the result of `ipaddr(ift.name)`, the reflection oracle for this tick, and
the error `argv.publish` would return if invoked this tick. -/
structure TickIn where
  ipaddrR : List IP × Option GoError
  lookupR : IP → List String × Option GoError
  publishR : Option GoError

/-- Outcome of one iteration of `run`'s ticker loop (main.go lines
244-269): either the loop sends an error on `errch` and returns (`fatal`),
or it continues into the next tick with a possibly updated remembered
value `p` and a record of the publish invocation, if any, as
(label, address, error returned by publish). -/
inductive TickOut where
  | fatal (e : GoError)
  | cont (p : String) (pub : Option (String × String × Option GoError))
deriving DecidableEq, Repr

/-- The body of `run`'s ticker loop (main.go lines 244-269): an
enumeration error is sent on `errch` and ends the loop; a `resolv` error is
logged and the tick skipped; an unchanged value (`p == n`) skips the tick;
otherwise `p` is set to `n` before the publish attempt, which is skipped
under `dryrun`, and whose failure is logged without further effect. -/
def runTick (dryrun : Bool) (ift : IfT) (t : TickIn) (p : String) : TickOut :=
  match t.ipaddrR with
  | (_, some e) => .fatal e
  | (ip, none) =>
    match resolv ift.strategy t.lookupR ip with
    | (_, some _) => .cont p none
    | (n, none) =>
      if p = n then .cont p none
      else if dryrun then .cont n none
      else .cont n (some (ift.label, n, t.publishR))

/-- `run` (main.go lines 236-270) over a finite schedule of ticks, from
remembered value `p` (initially the zero value `""` of `var p string`):
the per-tick publish records of the completed ticks, and the error sent on
`errch` when the loop terminated, if it did. A fatal tick contributes no
record and the schedule's remaining ticks never run. -/
def runTrace (dryrun : Bool) (ift : IfT) :
    String → List TickIn → List (Option (String × String × Option GoError)) × Option GoError
  | _, [] => ([], none)
  | p, t :: ts =>
    match runTick dryrun ift t p with
    | .fatal e => ([], some e)
    | .cont p' pub =>
      let r := runTrace dryrun ift p' ts
      (pub :: r.1, r.2)

/-- `main` (main.go lines 226-234): after starting every task's `run`, the
supervisor executes `err := <-errch` and `argv.stderr.Fatalln(err)` — the
process exits with the first error delivered on the shared channel.
`received` is the channel's delivery order; `none` means no task ever
failed and the process runs forever. -/
def mainExit (received : List GoError) : Option GoError := received.head?

/-- An `http.Request` as `publish` builds one: method, URL, body, headers. -/
structure HttpRequest where
  method : String
  url : String
  body : String
  headers : List (String × String)
deriving DecidableEq, Repr

/-- Observable outcome of `publish` (main.go lines 367-426): `skip` when
`net.ParseIP` rejects the address (return `nil` before any request is
built); `reqError` when `http.NewRequestWithContext` fails; `dryrunNoSend`
when the request was built but `argv.dryrun` suppressed the send;
`sent` with the selected record type, the request, and the error from the
HTTP round trip (`nil` on success). -/
inductive PublishOut where
  | skip
  | reqError (rtype : String) (e : GoError)
  | dryrunNoSend (rtype : String) (req : HttpRequest)
  | sent (rtype : String) (req : HttpRequest) (e : Option GoError)
deriving DecidableEq, Repr

/-- The record type a `publish` outcome selected, if the address parsed. -/
def rtypeOf : PublishOut → Option String
  | .skip => none
  | .reqError rt _ => some rt
  | .dryrunNoSend rt _ => some rt
  | .sent rt _ _ => some rt

/-- `publish` (main.go lines 367-426): parse the address (`nil` → no-op),
select record type "A" when `ip.To4() != nil` and "AAAA" otherwise, build
the Gandi PUT request, and send it unless `dryrun`. `newRequest` stands
for `http.NewRequestWithContext`, `doRequest` for `http.Client.Do`
followed by reading the response body. -/
def publish (argv : ArgvT)
    (newRequest : String → String → String → HttpRequest × Option GoError)
    (doRequest : HttpRequest → String × Option GoError)
    (label ipaddr : String) : PublishOut :=
  match ParseIP ipaddr with
  | none => .skip
  | some ip =>
    let rtype := if To4 ip = none then "AAAA" else "A"
    let u := "https://dns.api.gandi.net/api/v5/domains/" ++ argv.domain ++
      "/records/" ++ label ++ "/" ++ rtype
    let h := [("Content-Type", "application/json"), ("X-Api-Key", argv.apikey)]
    let body := "\x7b\"rrset_ttl\": " ++ toString argv.ttl ++
      ", \"rrset_values\":[\"" ++ ipaddr ++ "\"]\x7d"
    match newRequest "PUT" u body with
    | (_, some e) => .reqError rtype e
    | (r0, none) =>
      let r : HttpRequest := { r0 with headers := h }
      if argv.dryrun then .dryrunNoSend rtype r
      else .sent rtype r (doRequest r).2

/-! ## Shared sample values and helper lemmas -/

/-- The documentation address 203.0.113.5 in Go's 16-byte form. -/
def ip4Sample : IP := mkIPv4 203 0 113 5

/-- The documentation address 2001:db8::1. -/
def ip6Sample : IP := [0x20, 0x01, 0x0d, 0xb8, 0, 0, 0, 0, 0, 0, 0, 0, 0, 0, 0, 1]

/-- A reflection oracle on which every query times out. -/
def failLookup : IP → List String × Option GoError := fun _ => ([], some (.goErr "timeout"))

/-- A sample reflection task. -/
def iftSample : IfT := ⟨"eth0", "www", .resolv4, 60000000000⟩

/-- A tick on which enumeration yields the single candidate `a`, reflection
answers `v` for every candidate, and a publish attempt would succeed. -/
def tickOf (a : IP) (v : String) : TickIn := ⟨([a], none), fun _ => ([v], none), none⟩

/-- The per-candidate failure condition of `resolv`'s reflection branch: a
query error, an empty answer list, or a first answer `net.ParseIP` rejects. -/
def lookupFails (lookup : IP → List String × Option GoError) (a : IP) : Prop :=
  (lookup a).2 ≠ none ∨ (lookup a).1 = [] ∨ ParseIP ((lookup a).1.headD "") = none

instance (lookup : IP → List String × Option GoError) (a : IP) :
    Decidable (lookupFails lookup a) := by
  unfold lookupFails; infer_instance

theorem isEmpty_false_of_ne_nil {α : Type} {l : List α} (h : l ≠ []) :
    ¬ (l.isEmpty = true) := by
  cases l with
  | nil => exact absurd rfl h
  | cons x xs => simp

theorem resolvLoop_reflect_skip {strat : Strategy}
    (hs : strat = .resolv4 ∨ strat = .resolv6)
    (lookup : IP → List String × Option GoError) (a : IP) (rest : List IP)
    (h : lookupFails lookup a) :
    resolvLoop strat lookup (a :: rest) = resolvLoop strat lookup rest := by
  unfold lookupFails at h
  rcases hl : lookup a with ⟨ans, e⟩
  rw [hl] at h
  cases e with
  | some e' =>
    rcases hs with hs | hs <;> subst hs <;> simp [resolvLoop, hl]
  | none =>
    have h' : ans = [] ∨ ParseIP (ans.headD "") = none := by
      rcases h with h | h | h
      · exact absurd rfl h
      · exact Or.inl h
      · exact Or.inr h
    rcases hs with hs | hs <;> subst hs
    all_goals
      simp only [resolvLoop, hl]
      split
      next => rfl
      next hb =>
        split
        next => rfl
        next hp =>
          rcases h' with h' | h'
          · exact absurd (by rw [h']; rfl) hb
          · exact absurd h' hp

theorem resolvQueried_reflect_skip {strat : Strategy}
    (hs : strat = .resolv4 ∨ strat = .resolv6)
    (lookup : IP → List String × Option GoError) (a : IP) (rest : List IP)
    (h : lookupFails lookup a) :
    resolvQueried strat lookup (a :: rest) = a :: resolvQueried strat lookup rest := by
  unfold lookupFails at h
  rcases hl : lookup a with ⟨ans, e⟩
  rw [hl] at h
  cases e with
  | some e' =>
    rcases hs with hs | hs <;> subst hs <;> simp [resolvQueried, hl]
  | none =>
    have h' : ans = [] ∨ ParseIP (ans.headD "") = none := by
      rcases h with h | h | h
      · exact absurd rfl h
      · exact Or.inl h
      · exact Or.inr h
    rcases hs with hs | hs <;> subst hs
    all_goals
      simp only [resolvQueried, hl]
      split
      next => rfl
      next hb =>
        split
        next => rfl
        next hp =>
          rcases h' with h' | h'
          · exact absurd (by rw [h']; rfl) hb
          · exact absurd h' hp

theorem resolvLoop_reflect_ok {strat : Strategy}
    (hs : strat = .resolv4 ∨ strat = .resolv6)
    (lookup : IP → List String × Option GoError) (c : IP) (rest : List IP)
    (ans : List String) (hc : lookup c = (ans, none)) (h1 : ¬ ans = [])
    (h2 : ParseIP (ans.headD "") ≠ none) :
    resolvLoop strat lookup (c :: rest) = (ans.headD "", none) := by
  rcases hs with hs | hs <;> subst hs
  all_goals
    simp only [resolvLoop, hc]
    rw [if_neg (isEmpty_false_of_ne_nil h1), if_neg h2]

theorem resolvQueried_reflect_ok {strat : Strategy}
    (hs : strat = .resolv4 ∨ strat = .resolv6)
    (lookup : IP → List String × Option GoError) (c : IP) (rest : List IP)
    (ans : List String) (hc : lookup c = (ans, none)) (h1 : ¬ ans = [])
    (h2 : ParseIP (ans.headD "") ≠ none) :
    resolvQueried strat lookup (c :: rest) = [c] := by
  rcases hs with hs | hs <;> subst hs
  all_goals
    simp only [resolvQueried, hc]
    rw [if_neg (isEmpty_false_of_ne_nil h1), if_neg h2]

theorem resolvLoop_reflect_allFail {strat : Strategy}
    (hs : strat = .resolv4 ∨ strat = .resolv6)
    (lookup : IP → List String × Option GoError) :
    ∀ addr : List IP, (∀ a ∈ addr, lookupFails lookup a) →
      resolvLoop strat lookup addr = ("", some .noValidAddresses)
  | [], _ => rfl
  | a :: rest, h => by
    rw [resolvLoop_reflect_skip hs lookup a rest (h a (List.mem_cons_self a rest))]
    exact resolvLoop_reflect_allFail hs lookup rest fun x hx => h x (List.mem_cons_of_mem a hx)

theorem resolvQueried_reflect_allFail {strat : Strategy}
    (hs : strat = .resolv4 ∨ strat = .resolv6)
    (lookup : IP → List String × Option GoError) :
    ∀ addr : List IP, (∀ a ∈ addr, lookupFails lookup a) →
      resolvQueried strat lookup addr = addr
  | [], _ => rfl
  | a :: rest, h => by
    rw [resolvQueried_reflect_skip hs lookup a rest (h a (List.mem_cons_self a rest))]
    rw [resolvQueried_reflect_allFail hs lookup rest fun x hx => h x (List.mem_cons_of_mem a hx)]

theorem resolvLoop_inet4_skip (lookup : IP → List String × Option GoError)
    (a : IP) (rest : List IP) (h4 : To4 a = none) :
    resolvLoop .inet4 lookup (a :: rest) = resolvLoop .inet4 lookup rest := by
  simp only [resolvLoop]
  rw [if_pos h4]

theorem resolvLoop_inet4_ok (lookup : IP → List String × Option GoError)
    (a : IP) (rest : List IP) (h4 : ¬ To4 a = none) :
    resolvLoop .inet4 lookup (a :: rest) = (ipString a, none) := by
  simp only [resolvLoop]
  rw [if_neg h4]

theorem resolvLoop_inet6_skip (lookup : IP → List String × Option GoError)
    (a : IP) (rest : List IP) (h4 : ¬ To4 a = none) :
    resolvLoop .inet6 lookup (a :: rest) = resolvLoop .inet6 lookup rest := by
  simp only [resolvLoop, ne_eq]
  rw [if_pos h4]

theorem resolvLoop_inet6_ok (lookup : IP → List String × Option GoError)
    (a : IP) (rest : List IP) (h4 : To4 a = none) :
    resolvLoop .inet6 lookup (a :: rest) = (ipString a, none) := by
  simp only [resolvLoop, ne_eq]
  rw [if_neg (by simpa using h4)]

theorem resolvLoop_reflect_noSkip {strat : Strategy}
    (hs : strat = .resolv4 ∨ strat = .resolv6)
    (lookup : IP → List String × Option GoError) (a : IP) (rest : List IP)
    (hf : ¬ lookupFails lookup a) :
    resolvLoop strat lookup (a :: rest) = ((lookup a).1.headD "", none) := by
  unfold lookupFails at hf
  push_neg at hf
  obtain ⟨h1, h2, h3⟩ := hf
  rcases hl : lookup a with ⟨ans, e⟩
  have h1' : e = none := by rw [hl] at h1; exact h1
  subst h1'
  have h2' : ans ≠ [] := by rw [hl] at h2; exact h2
  have h3' : ParseIP (ans.headD "") ≠ none := by rw [hl] at h3; exact h3
  exact resolvLoop_reflect_ok hs lookup a rest ans hl h2' h3'

theorem resolvLoop_err_string {strat : Strategy}
    (lookup : IP → List String × Option GoError) :
    ∀ addr : List IP, (resolvLoop strat lookup addr).2 ≠ none →
      (resolvLoop strat lookup addr).1 = ""
  | [], _ => rfl
  | a :: rest, h => by
    rcases strat with _ | _ | _ | _
    case inet4 =>
      by_cases h4 : To4 a = none
      · rw [resolvLoop_inet4_skip lookup a rest h4] at h ⊢
        exact resolvLoop_err_string lookup rest h
      · rw [resolvLoop_inet4_ok lookup a rest h4] at h
        exact absurd rfl h
    case inet6 =>
      by_cases h4 : To4 a = none
      · rw [resolvLoop_inet6_ok lookup a rest h4] at h
        exact absurd rfl h
      · rw [resolvLoop_inet6_skip lookup a rest h4] at h ⊢
        exact resolvLoop_err_string lookup rest h
    case resolv4 =>
      by_cases hf : lookupFails lookup a
      · rw [resolvLoop_reflect_skip (Or.inl rfl) lookup a rest hf] at h ⊢
        exact resolvLoop_err_string lookup rest h
      · rw [resolvLoop_reflect_noSkip (Or.inl rfl) lookup a rest hf] at h
        exact absurd rfl h
    case resolv6 =>
      by_cases hf : lookupFails lookup a
      · rw [resolvLoop_reflect_skip (Or.inr rfl) lookup a rest hf] at h ⊢
        exact resolvLoop_err_string lookup rest h
      · rw [resolvLoop_reflect_noSkip (Or.inr rfl) lookup a rest hf] at h
        exact absurd rfl h

theorem resolvQueried_inet {strat : Strategy}
    (hs : strat = .inet4 ∨ strat = .inet6)
    (lookup : IP → List String × Option GoError) :
    ∀ addr : List IP, resolvQueried strat lookup addr = []
  | [] => rfl
  | _ :: _ => by rcases hs with hs | hs <;> subst hs <;> rfl

theorem resolvLoop_inet4_allFail (lookup : IP → List String × Option GoError) :
    ∀ addr : List IP, (∀ a ∈ addr, To4 a = none) →
      resolvLoop .inet4 lookup addr = ("", some .noValidAddresses)
  | [], _ => rfl
  | a :: rest, h => by
    rw [resolvLoop_inet4_skip lookup a rest (h a (List.mem_cons_self a rest))]
    exact resolvLoop_inet4_allFail lookup rest fun x hx => h x (List.mem_cons_of_mem a hx)

theorem resolvLoop_inet6_allFail (lookup : IP → List String × Option GoError) :
    ∀ addr : List IP, (∀ a ∈ addr, To4 a ≠ none) →
      resolvLoop .inet6 lookup addr = ("", some .noValidAddresses)
  | [], _ => rfl
  | a :: rest, h => by
    rw [resolvLoop_inet6_skip lookup a rest (h a (List.mem_cons_self a rest))]
    exact resolvLoop_inet6_allFail lookup rest fun x hx => h x (List.mem_cons_of_mem a hx)

theorem resolvLoop_inet_indep {strat : Strategy}
    (hs : strat = .inet4 ∨ strat = .inet6)
    (lookup lookup' : IP → List String × Option GoError) :
    ∀ addr : List IP, resolvLoop strat lookup addr = resolvLoop strat lookup' addr
  | [] => rfl
  | a :: rest => by
    have ih := resolvLoop_inet_indep hs lookup lookup' rest
    rcases hs with hs | hs <;> subst hs
    · by_cases h4 : To4 a = none
      · rw [resolvLoop_inet4_skip lookup a rest h4, resolvLoop_inet4_skip lookup' a rest h4, ih]
      · rw [resolvLoop_inet4_ok lookup a rest h4, resolvLoop_inet4_ok lookup' a rest h4]
    · by_cases h4 : To4 a = none
      · rw [resolvLoop_inet6_ok lookup a rest h4, resolvLoop_inet6_ok lookup' a rest h4]
      · rw [resolvLoop_inet6_skip lookup a rest h4, resolvLoop_inet6_skip lookup' a rest h4, ih]

/-! ## Claims -/

/-- C3: for every strategy, `resolv` applied to an empty candidate address
list returns the empty string together with no error — never the
no-valid-addresses error. -/
theorem c3_empty_candidates_not_error (strat : Strategy)
    (lookup : IP → List String × Option GoError) :
    resolv strat lookup [] = ("", none) := rfl

/-- C10: `resolv` never returns a non-empty address together with an error —
whenever the error component is non-nil, the string component is empty. -/
theorem c10_no_partial_answer (strat : Strategy)
    (lookup : IP → List String × Option GoError) (addr : List IP)
    (h : (resolv strat lookup addr).2 ≠ none) :
    (resolv strat lookup addr).1 = "" := by
  unfold resolv at h ⊢
  by_cases he : addr.isEmpty
  · simp [he]
  · simp only [he, if_false] at h ⊢
    exact resolvLoop_err_string lookup addr h

/-- Witness for C10: `inet4` resolution over the single IPv6 candidate
2001:db8::1 fails, and indeed returns the empty string. -/
theorem c10_no_partial_answer_witness :
    (resolv .inet4 failLookup [ip6Sample]).2 ≠ none ∧
      (resolv .inet4 failLookup [ip6Sample]).1 = "" :=
  ⟨by decide, c10_no_partial_answer .inet4 failLookup [ip6Sample] (by decide)⟩

/-- C1: under a reflection strategy, whenever every candidate before `c`
fails its per-candidate lookup (query error, empty answer, or unparsable
first answer), `resolv` advances past each of them; when `c`'s lookup
succeeds with a valid answer, `resolv` returns that answer without querying
any candidate after `c`; and when every candidate of a non-empty list
fails, `resolv` fails with the no-valid-addresses error only after querying
every candidate. -/
theorem c1_reflection_fallback {strat : Strategy}
    (hs : strat = .resolv4 ∨ strat = .resolv6)
    (lookup : IP → List String × Option GoError) :
    (∀ (pre : List IP) (c : IP) (post : List IP) (ans : List String),
      (∀ a ∈ pre, lookupFails lookup a) → lookup c = (ans, none) → ans ≠ [] →
      ParseIP (ans.headD "") ≠ none →
      resolv strat lookup (pre ++ c :: post) = (ans.headD "", none) ∧
      resolvQueried strat lookup (pre ++ c :: post) = pre ++ [c]) ∧
    (∀ addr : List IP, addr ≠ [] → (∀ a ∈ addr, lookupFails lookup a) →
      resolv strat lookup addr = ("", some .noValidAddresses) ∧
      resolvQueried strat lookup addr = addr) := by
  constructor
  · intro pre c post ans hpre hc h1 h2
    have hloop : ∀ pre' : List IP, (∀ a ∈ pre', lookupFails lookup a) →
        resolvLoop strat lookup (pre' ++ c :: post) = (ans.headD "", none) ∧
        resolvQueried strat lookup (pre' ++ c :: post) = pre' ++ [c] := by
      intro pre'
      induction pre' with
      | nil =>
        intro _
        exact ⟨resolvLoop_reflect_ok hs lookup c post ans hc h1 h2,
               resolvQueried_reflect_ok hs lookup c post ans hc h1 h2⟩
      | cons x xs ih =>
        intro hx
        have hxf := hx x (List.mem_cons_self x xs)
        have hrest := ih fun z hz => hx z (List.mem_cons_of_mem x hz)
        constructor
        · rw [List.cons_append, resolvLoop_reflect_skip hs lookup x (xs ++ c :: post) hxf]
          exact hrest.1
        · rw [List.cons_append,
            resolvQueried_reflect_skip hs lookup x (xs ++ c :: post) hxf, hrest.2]
          rfl
    refine ⟨?_, (hloop pre hpre).2⟩
    unfold resolv
    rw [if_neg (isEmpty_false_of_ne_nil (by simp))]
    exact (hloop pre hpre).1
  · intro addr hne hall
    refine ⟨?_, resolvQueried_reflect_allFail hs lookup addr hall⟩
    unfold resolv
    rw [if_neg (isEmpty_false_of_ne_nil hne)]
    exact resolvLoop_reflect_allFail hs lookup addr hall

/-- A reflection oracle on which only the candidate 192.0.2.3 succeeds. -/
def pickLookup : IP → List String × Option GoError := fun a =>
  if a = mkIPv4 192 0 2 3 then (["198.51.100.7"], none)
  else ([], some (.goErr "timeout"))

/-- Witness for C1: three candidates under `resolv4`, the first two failing
and the third answering 198.51.100.7; resolution returns that answer and the
query trace covers exactly the three candidates; a list on which every
lookup fails yields the no-valid-addresses error. -/
theorem c1_reflection_fallback_witness :
    (resolv .resolv4 pickLookup [mkIPv4 192 0 2 1, mkIPv4 192 0 2 2, mkIPv4 192 0 2 3] =
      ("198.51.100.7", none) ∧
     resolvQueried .resolv4 pickLookup [mkIPv4 192 0 2 1, mkIPv4 192 0 2 2, mkIPv4 192 0 2 3] =
      [mkIPv4 192 0 2 1, mkIPv4 192 0 2 2, mkIPv4 192 0 2 3]) ∧
    resolv .resolv4 pickLookup [mkIPv4 192 0 2 1, mkIPv4 192 0 2 2] =
      ("", some .noValidAddresses) := by
  constructor
  · exact (c1_reflection_fallback (Or.inl rfl) pickLookup).1
      [mkIPv4 192 0 2 1, mkIPv4 192 0 2 2] (mkIPv4 192 0 2 3) [] ["198.51.100.7"]
      (by decide) (by decide) (by decide) (by decide)
  · exact ((c1_reflection_fallback (Or.inl rfl) pickLookup).2
      [mkIPv4 192 0 2 1, mkIPv4 192 0 2 2] (by decide) (by decide)).1

/-- C2: under `inet4` (resp. `inet6`), `resolv` performs no reflection query
(the query trace is empty and the result does not depend on the lookup
oracle) and returns the textual form of the first candidate whose family
matches — `To4` non-nil for `inet4`, nil for `inet6` — skipping
non-matching candidates; a non-empty list without a matching candidate
yields the no-valid-addresses error. -/
theorem c2_local_strategies (lookup lookup' : IP → List String × Option GoError) :
    (∀ (pre : List IP) (c : IP) (post : List IP),
      (∀ a ∈ pre, To4 a = none) → To4 c ≠ none →
      resolv .inet4 lookup (pre ++ c :: post) = (ipString c, none) ∧
      resolvQueried .inet4 lookup (pre ++ c :: post) = []) ∧
    (∀ (pre : List IP) (c : IP) (post : List IP),
      (∀ a ∈ pre, To4 a ≠ none) → To4 c = none →
      resolv .inet6 lookup (pre ++ c :: post) = (ipString c, none) ∧
      resolvQueried .inet6 lookup (pre ++ c :: post) = []) ∧
    (∀ addr : List IP, addr ≠ [] → (∀ a ∈ addr, To4 a = none) →
      resolv .inet4 lookup addr = ("", some .noValidAddresses)) ∧
    (∀ addr : List IP, addr ≠ [] → (∀ a ∈ addr, To4 a ≠ none) →
      resolv .inet6 lookup addr = ("", some .noValidAddresses)) ∧
    (∀ addr : List IP, resolv .inet4 lookup addr = resolv .inet4 lookup' addr ∧
      resolv .inet6 lookup addr = resolv .inet6 lookup' addr) := by
  refine ⟨?_, ?_, ?_, ?_, ?_⟩
  · intro pre c post hpre hc
    refine ⟨?_, resolvQueried_inet (Or.inl rfl) lookup (pre ++ c :: post)⟩
    unfold resolv
    rw [if_neg (isEmpty_false_of_ne_nil (by simp))]
    induction pre with
    | nil => exact resolvLoop_inet4_ok lookup c post hc
    | cons x xs ih =>
      rw [List.cons_append,
        resolvLoop_inet4_skip lookup x (xs ++ c :: post) (hpre x (List.mem_cons_self x xs))]
      exact ih fun z hz => hpre z (List.mem_cons_of_mem x hz)
  · intro pre c post hpre hc
    refine ⟨?_, resolvQueried_inet (Or.inr rfl) lookup (pre ++ c :: post)⟩
    unfold resolv
    rw [if_neg (isEmpty_false_of_ne_nil (by simp))]
    induction pre with
    | nil => exact resolvLoop_inet6_ok lookup c post hc
    | cons x xs ih =>
      rw [List.cons_append,
        resolvLoop_inet6_skip lookup x (xs ++ c :: post) (hpre x (List.mem_cons_self x xs))]
      exact ih fun z hz => hpre z (List.mem_cons_of_mem x hz)
  · intro addr hne hall
    unfold resolv
    rw [if_neg (isEmpty_false_of_ne_nil hne)]
    exact resolvLoop_inet4_allFail lookup addr hall
  · intro addr hne hall
    unfold resolv
    rw [if_neg (isEmpty_false_of_ne_nil hne)]
    exact resolvLoop_inet6_allFail lookup addr hall
  · intro addr
    unfold resolv
    by_cases he : addr.isEmpty
    · simp [he]
    · rw [if_neg he, if_neg he, if_neg he, if_neg he]
      exact ⟨resolvLoop_inet_indep (Or.inl rfl) lookup lookup' addr,
             resolvLoop_inet_indep (Or.inr rfl) lookup lookup' addr⟩

/-- Counterexample for C2 as stated: the claim quantifies over every
candidate address list and asserts that when no candidate's family matches,
resolution fails with the no-valid-addresses error; but on the empty list —
where no candidate matches — `resolv` under `inet4` returns the empty
string with no error, not that failure. -/
theorem c2_local_strategies_counterexample :
    resolv .inet4 failLookup [] = ("", none) ∧
    resolv .inet4 failLookup [] ≠ ("", some GoError.noValidAddresses) := by
  constructor
  · decide
  · decide

/-- Witness for C2: `inet4` on the candidate list holding 203.0.113.5 before
2001:db8::1 returns "203.0.113.5" (the first candidate already matches, so
`pre` is empty), and `inet4` on the IPv6-only list fails with the
no-valid-addresses error. -/
theorem c2_local_strategies_witness :
    (resolv .inet4 failLookup [ip4Sample, ip6Sample] = (ipString ip4Sample, none) ∧
      ipString ip4Sample = "203.0.113.5") ∧
    resolv .inet4 failLookup [ip6Sample] = ("", some .noValidAddresses) := by
  refine ⟨⟨?_, by decide⟩, ?_⟩
  · exact ((c2_local_strategies failLookup failLookup).1 [] ip4Sample [ip6Sample]
      (by decide) (by decide)).1
  · exact (c2_local_strategies failLookup failLookup).2.2.1 [ip6Sample]
      (by decide) (by decide)

theorem runTick_enum_ok (dry : Bool) (ift : IfT) (ip : List IP)
    (lk : IP → List String × Option GoError) (pubR : Option GoError) (p : String) :
    runTick dry ift ⟨(ip, none), lk, pubR⟩ p =
      match resolv ift.strategy lk ip with
      | (_, some _) => TickOut.cont p none
      | (n, none) =>
        if p = n then TickOut.cont p none
        else if dry then TickOut.cont n none
        else TickOut.cont n (some (ift.label, n, pubR)) := rfl

theorem runTick_resolved (dry : Bool) (ift : IfT) (ip : List IP)
    (lk : IP → List String × Option GoError) (pubR : Option GoError) (p n : String)
    (hres : resolv ift.strategy lk ip = (n, none)) :
    runTick dry ift ⟨(ip, none), lk, pubR⟩ p =
      if p = n then TickOut.cont p none
      else if dry then TickOut.cont n none
      else TickOut.cont n (some (ift.label, n, pubR)) := by
  rw [runTick_enum_ok, hres]

theorem runTick_resolvErr (dry : Bool) (ift : IfT) (ip : List IP)
    (lk : IP → List String × Option GoError) (pubR : Option GoError) (p s : String)
    (e : GoError) (hres : resolv ift.strategy lk ip = (s, some e)) :
    runTick dry ift ⟨(ip, none), lk, pubR⟩ p = .cont p none := by
  rw [runTick_enum_ok, hres]

theorem resolv_tickValue (ift : IfT) (hstrat : ift.strategy = .resolv4)
    (a : IP) (v : String) (hv : ParseIP v ≠ none) :
    resolv ift.strategy (fun _ => ([v], none)) [a] = (v, none) := by
  rw [hstrat]
  unfold resolv
  rw [if_neg (isEmpty_false_of_ne_nil (by simp))]
  exact resolvLoop_reflect_ok (Or.inl rfl) (fun _ => ([v], none)) a [] [v] rfl
    (by simp) hv

theorem runTick_tickOf (ift : IfT) (hstrat : ift.strategy = .resolv4)
    (a : IP) (v p : String) (hv : ParseIP v ≠ none) :
    runTick false ift (tickOf a v) p =
      if p = v then TickOut.cont p none
      else TickOut.cont v (some (ift.label, v, none)) := by
  have h := runTick_resolved false ift [a] (fun _ => ([v], none)) none p v
    (resolv_tickValue ift hstrat a v hv)
  by_cases hp : p = v
  · rw [show tickOf a v = ⟨([a], none), fun _ => ([v], none), none⟩ from rfl, h,
      if_pos hp, if_pos hp]
  · rw [show tickOf a v = ⟨([a], none), fun _ => ([v], none), none⟩ from rfl, h,
      if_neg hp, if_neg hp]
    rfl

/-- C4: on the resolved-value sequence A, A, B, B, A (all ticks enumerating
and resolving successfully, every publish succeeding, remembered value
initially the empty string), the poll loop invokes the Publisher exactly on
ticks 1, 3 and 5 — the ticks whose resolved value differs from the
remembered value — and a tick whose resolved value equals the remembered
value never publishes. -/
theorem c4_change_detection (ift : IfT) (a : IP) (A B : String)
    (hstrat : ift.strategy = .resolv4)
    (hA : ParseIP A ≠ none) (hB : ParseIP B ≠ none)
    (hA0 : A ≠ "") (hAB : A ≠ B) :
    (runTrace false ift "" [tickOf a A, tickOf a A, tickOf a B, tickOf a B,
        tickOf a A]).1.map Option.isSome = [true, false, true, false, true] ∧
    (∀ (dry : Bool) (ip : List IP) (lk : IP → List String × Option GoError)
        (pubR : Option GoError) (p : String),
      resolv ift.strategy lk ip = (p, none) →
      runTick dry ift ⟨(ip, none), lk, pubR⟩ p = .cont p none) := by
  constructor
  · have t1 : runTick false ift (tickOf a A) "" = .cont A (some (ift.label, A, none)) := by
      rw [runTick_tickOf ift hstrat a A "" hA, if_neg fun h => hA0 h.symm]
    have t2 : runTick false ift (tickOf a A) A = .cont A none := by
      rw [runTick_tickOf ift hstrat a A A hA, if_pos rfl]
    have t3 : runTick false ift (tickOf a B) A = .cont B (some (ift.label, B, none)) := by
      rw [runTick_tickOf ift hstrat a B A hB, if_neg hAB]
    have t4 : runTick false ift (tickOf a B) B = .cont B none := by
      rw [runTick_tickOf ift hstrat a B B hB, if_pos rfl]
    have t5 : runTick false ift (tickOf a A) B = .cont A (some (ift.label, A, none)) := by
      rw [runTick_tickOf ift hstrat a A B hA, if_neg fun h => hAB h.symm]
    simp only [runTrace, t1, t2, t3, t4, t5, List.map]
    rfl
  · intro dry ip lk pubR p hres
    rw [runTick_resolved dry ift ip lk pubR p p hres, if_pos rfl]

/-- Witness for C4: with A = 203.0.113.5 and B = 198.51.100.7 resolved via
reflection over a single candidate, the publish pattern over five ticks is
exactly true, false, true, false, true. -/
theorem c4_change_detection_witness :
    (runTrace false iftSample ""
      [tickOf ip4Sample "203.0.113.5", tickOf ip4Sample "203.0.113.5",
       tickOf ip4Sample "198.51.100.7", tickOf ip4Sample "198.51.100.7",
       tickOf ip4Sample "203.0.113.5"]).1.map Option.isSome =
      [true, false, true, false, true] :=
  (c4_change_detection iftSample ip4Sample "203.0.113.5" "198.51.100.7" rfl
    (by decide) (by decide) (by decide) (by decide)).1

/-- C5 counterexample: the remembered value is NOT the last successfully
published value. On a first tick resolving 203.0.113.5 whose publish fails,
the loop still advances the remembered value from "" to "203.0.113.5"
(first conjunct), and on the next tick the same address is NOT detected as
changed again — no second publish is attempted (second conjunct, publish
record `none` on tick 2) — contradicting the claim on this input. -/
theorem c5_counterexample :
    runTick false iftSample
      ⟨([ip4Sample], none), fun _ => (["203.0.113.5"], none), some (.goErr "http failure")⟩ "" =
      .cont "203.0.113.5" (some ("www", "203.0.113.5", some (.goErr "http failure"))) ∧
    runTrace false iftSample ""
      [⟨([ip4Sample], none), fun _ => (["203.0.113.5"], none), some (.goErr "http failure")⟩,
       ⟨([ip4Sample], none), fun _ => (["203.0.113.5"], none), some (.goErr "http failure")⟩] =
      ([some ("www", "203.0.113.5", some (.goErr "http failure")), none], none) := by
  constructor
  · decide
  · decide

/-- C5 as amended: the value the poll loop compares against is the last
resolved value that passed change detection — `p` is updated to the resolved
address before the publish attempt, a failed publish leaves it updated
(the publish error is only logged), and the same address is therefore not
re-detected as changed on the following tick. -/
theorem c5_amended_remembered_value (ift : IfT) (ip : List IP)
    (lk : IP → List String × Option GoError) (e : GoError) (p n : String)
    (hres : resolv ift.strategy lk ip = (n, none)) (hne : p ≠ n) :
    runTick false ift ⟨(ip, none), lk, some e⟩ p =
      .cont n (some (ift.label, n, some e)) ∧
    (∀ pubR' : Option GoError, runTick false ift ⟨(ip, none), lk, pubR'⟩ n = .cont n none) := by
  constructor
  · rw [runTick_resolved false ift ip lk (some e) p n hres, if_neg hne]
    rfl
  · intro pubR'
    rw [runTick_resolved false ift ip lk pubR' n n hres, if_pos rfl]

/-- Witness for C5's amended statement: a failed publish of 203.0.113.5
leaves the remembered value set to 203.0.113.5, and the next tick resolving
the same address does not publish. -/
theorem c5_amended_witness :
    runTick false iftSample
      ⟨([ip4Sample], none), fun _ => (["203.0.113.5"], none), some (.goErr "http failure")⟩ "" =
      .cont "203.0.113.5" (some ("www", "203.0.113.5", some (.goErr "http failure"))) ∧
    runTick false iftSample
      ⟨([ip4Sample], none), fun _ => (["203.0.113.5"], none), none⟩ "203.0.113.5" =
      .cont "203.0.113.5" none := by
  have h := c5_amended_remembered_value iftSample [ip4Sample]
    (fun _ => (["203.0.113.5"], none)) (.goErr "http failure") "" "203.0.113.5"
    (by decide) (by decide)
  exact ⟨h.1, h.2 none⟩

/-- C6: a `resolv` error under a reflection strategy is recoverable — the
tick publishes nothing, leaves the remembered value unchanged, sends
nothing on the error channel, and the loop goes on to process the remaining
ticks exactly as it would have without the failed tick. -/
theorem c6_resolv_error_recoverable (dry : Bool) (ift : IfT) (p : String)
    (ip : List IP) (lk : IP → List String × Option GoError) (pubR : Option GoError)
    (s : String) (e : GoError)
    (_hstrat : ift.strategy = .resolv4 ∨ ift.strategy = .resolv6)
    (hres : resolv ift.strategy lk ip = (s, some e)) :
    runTick dry ift ⟨(ip, none), lk, pubR⟩ p = .cont p none ∧
    (∀ ts : List TickIn, runTrace dry ift p (⟨(ip, none), lk, pubR⟩ :: ts) =
      ((none : Option (String × String × Option GoError)) :: (runTrace dry ift p ts).1,
        (runTrace dry ift p ts).2)) := by
  have h1 : runTick dry ift ⟨(ip, none), lk, pubR⟩ p = .cont p none :=
    runTick_resolvErr dry ift ip lk pubR p s e hres
  refine ⟨h1, fun ts => ?_⟩
  simp only [runTrace, h1]

/-- Witness for C6: every reflection query timing out on the single
candidate, the tick is skipped (`cont` with the remembered value intact and
no publish record) and the one-tick trace ends with no error sent. -/
theorem c6_resolv_error_recoverable_witness :
    runTick false iftSample ⟨([ip4Sample], none), failLookup, none⟩ "q" = .cont "q" none ∧
    runTrace false iftSample "q" [⟨([ip4Sample], none), failLookup, none⟩] =
      ([none], none) := by
  have h := c6_resolv_error_recoverable false iftSample "q" [ip4Sample] failLookup none
    "" .noValidAddresses (Or.inl rfl) (by decide)
  exact ⟨h.1, h.2 []⟩

/-- C7: an enumeration failure is fatal to the owning task: regardless of
the tick's reflection and publish oracles, the tick performs no resolution
or publish, the error is sent on the error channel exactly once (it is the
trace's terminal error), the loop processes no further tick, and the
supervisor exits the process with that error when it is the first one
delivered. -/
theorem c7_enum_failure_fatal (dry : Bool) (ift : IfT) (p : String)
    (ipR : List IP × Option GoError) (e : GoError) (h : ipR.2 = some e) :
    (∀ (lk : IP → List String × Option GoError) (pubR : Option GoError),
      runTick dry ift ⟨ipR, lk, pubR⟩ p = .fatal e) ∧
    (∀ (lk : IP → List String × Option GoError) (pubR : Option GoError)
        (ts : List TickIn),
      runTrace dry ift p (⟨ipR, lk, pubR⟩ :: ts) = ([], some e)) ∧
    (∀ later : List GoError, mainExit (e :: later) = some e) := by
  obtain ⟨ip, e'⟩ := ipR
  have he : e' = some e := h
  subst he
  exact ⟨fun lk pubR => rfl, fun lk pubR ts => rfl, fun later => rfl⟩

/-- Witness for C7: a failing enumeration on tick 1 ends the task's trace
with that error, the scheduled second tick never running, and the
supervisor exits with it. -/
theorem c7_enum_failure_fatal_witness :
    runTick false iftSample ⟨([], some (.goErr "no such interface")), failLookup, none⟩ "" =
      .fatal (.goErr "no such interface") ∧
    runTrace false iftSample ""
      [⟨([], some (.goErr "no such interface")), failLookup, none⟩,
       tickOf ip4Sample "203.0.113.5"] = ([], some (.goErr "no such interface")) ∧
    mainExit [.goErr "no such interface", .noValidAddresses] =
      some (.goErr "no such interface") := by
  have h := c7_enum_failure_fatal false iftSample "" ([], some (.goErr "no such interface"))
    (.goErr "no such interface") rfl
  exact ⟨h.1 failLookup none, h.2.1 failLookup none [tickOf ip4Sample "203.0.113.5"],
    h.2.2 [.noValidAddresses]⟩

/-- C8: task-grammar parsing. A specification string with 1-4 colon-separated
fields yields exactly one Task per the defaulting rules (1 field: label is
the interface name, zero-value strategy `inet4`, global default interval;
2 fields: explicit label; 3 fields: explicit strategy; 4 fields: explicit
strategy and parsed duration); any other field count fails with the
specification error; an unrecognized strategy token fails with the strategy
error carrying the token, producing no Task. -/
theorem c8_task_grammar (pd : String → Int × Option GoError) (d : Int) (s : String) :
    (∀ n : String, stringSplit s ':' = [n] →
      toIf pd d [s] = ([⟨n, n, .inet4, d⟩], none)) ∧
    (∀ n l : String, stringSplit s ':' = [n, l] →
      toIf pd d [s] = ([⟨n, l, .inet4, d⟩], none)) ∧
    (∀ (n l st : String) (sv : Strategy), stringSplit s ':' = [n, l, st] →
      strategy st = (sv, none) →
      toIf pd d [s] = ([⟨n, l, sv, d⟩], none)) ∧
    (∀ (n l st iv : String) (sv : Strategy) (dv : Int),
      stringSplit s ':' = [n, l, st, iv] → strategy st = (sv, none) → pd iv = (dv, none) →
      toIf pd d [s] = ([⟨n, l, sv, dv⟩], none)) ∧
    (¬ (stringSplit s ':').length ∈ ([1, 2, 3, 4] : List Nat) →
      toIf pd d [s] = ([], some (.invalidSpecification s))) ∧
    (∀ (n l st : String) (rest : List String),
      stringSplit s ':' = n :: l :: st :: rest → rest.length ≤ 1 →
      st ∉ (["inet", "inet4", "inet6", "resolv", "resolv4", "resolv6"] : List String) →
      toIf pd d [s] = ([], some (.invalidStrategy st))) := by
  refine ⟨?_, ?_, ?_, ?_, ?_, ?_⟩
  · intro n hs1
    simp only [toIf, hs1]
  · intro n l hs1
    simp only [toIf, hs1]
  · intro n l st sv hs1 hst
    simp only [toIf, hs1, hst]
  · intro n l st iv sv dv hs1 hst hpd
    simp only [toIf, hs1, hst, hpd]
  · intro hlen
    rcases hsp : stringSplit s ':' with _ | ⟨a, _ | ⟨b, _ | ⟨c, _ | ⟨e, _ | ⟨f, tail⟩⟩⟩⟩⟩
    · simp only [toIf, hsp]
    · exact absurd (by rw [hsp]; simp) hlen
    · exact absurd (by rw [hsp]; simp) hlen
    · exact absurd (by rw [hsp]; simp) hlen
    · exact absurd (by rw [hsp]; simp) hlen
    · simp only [toIf, hsp]
  · intro n l st rest hs1 hrl htok
    have hst : strategy st = (.inet4, some (.invalidStrategy st)) := by
      have h1 : st ≠ "inet" := fun h => htok (by rw [h]; decide)
      have h2 : st ≠ "inet4" := fun h => htok (by rw [h]; decide)
      have h3 : st ≠ "inet6" := fun h => htok (by rw [h]; decide)
      have h4 : st ≠ "resolv" := fun h => htok (by rw [h]; decide)
      have h5 : st ≠ "resolv4" := fun h => htok (by rw [h]; decide)
      have h6 : st ≠ "resolv6" := fun h => htok (by rw [h]; decide)
      unfold strategy
      rw [if_neg (not_or.mpr ⟨h1, h2⟩), if_neg h3, if_neg (not_or.mpr ⟨h4, h5⟩),
        if_neg h6]
    rcases rest with _ | ⟨iv, rest2⟩
    · simp only [toIf, hs1, hst]
    · rcases rest2 with _ | ⟨x, rest3⟩
      · simp only [toIf, hs1, hst]
      · exfalso
        rw [List.length_cons, List.length_cons] at hrl
        omega

/-- A `time.ParseDuration` oracle that knows only the string "30s". -/
def pdSample : String → Int × Option GoError := fun s =>
  if s = "30s" then (30000000000, none) else (0, some (.goErr "invalid duration"))

/-- Witness for C8: concrete specification strings of each kind — a 4-field
specification, a 1-field specification, an unknown strategy token, and a
5-field specification. -/
theorem c8_task_grammar_witness :
    toIf pdSample 60000000000 ["eth0:www:resolv6:30s"] =
      ([⟨"eth0", "www", .resolv6, 30000000000⟩], none) ∧
    toIf pdSample 60000000000 ["eth1"] = ([⟨"eth1", "eth1", .inet4, 60000000000⟩], none) ∧
    toIf pdSample 60000000000 ["eth0:www:bogus"] = ([], some (.invalidStrategy "bogus")) ∧
    toIf pdSample 60000000000 ["a:b:inet:30s:x"] =
      ([], some (.invalidSpecification "a:b:inet:30s:x")) := by
  refine ⟨?_, ?_, ?_, ?_⟩
  · exact (c8_task_grammar pdSample 60000000000 "eth0:www:resolv6:30s").2.2.2.1
      "eth0" "www" "resolv6" "30s" .resolv6 30000000000 (by decide) (by decide) (by decide)
  · exact (c8_task_grammar pdSample 60000000000 "eth1").1 "eth1" (by decide)
  · exact (c8_task_grammar pdSample 60000000000 "eth0:www:bogus").2.2.2.2.2
      "eth0" "www" "bogus" [] (by decide) (by decide) (by decide)
  · exact (c8_task_grammar pdSample 60000000000 "a:b:inet:30s:x").2.2.2.2.1 (by decide)

theorem publish_parsed (argv : ArgvT)
    (newRequest : String → String → String → HttpRequest × Option GoError)
    (doRequest : HttpRequest → String × Option GoError) (label s : String)
    (ip : IP) (hp : ParseIP s = some ip) :
    publish argv newRequest doRequest label s =
      (let rtype := if To4 ip = none then "AAAA" else "A"
       let u := "https://dns.api.gandi.net/api/v5/domains/" ++ argv.domain ++
         "/records/" ++ label ++ "/" ++ rtype
       let h := [("Content-Type", "application/json"), ("X-Api-Key", argv.apikey)]
       let body := "\x7b\"rrset_ttl\": " ++ toString argv.ttl ++
         ", \"rrset_values\":[\"" ++ s ++ "\"]\x7d"
       match newRequest "PUT" u body with
       | (_, some e) => PublishOut.reqError rtype e
       | (r0, none) =>
         let r : HttpRequest := { r0 with headers := h }
         if argv.dryrun then PublishOut.dryrunNoSend rtype r
         else PublishOut.sent rtype r (doRequest r).2) := by
  unfold publish
  rw [hp]

theorem rtypeOf_branch (rt : String) (hs : List (String × String)) (dry : Bool)
    (doRequest : HttpRequest → String × Option GoError)
    (nr : HttpRequest × Option GoError) :
    rtypeOf (match nr with
      | (_, some e) => PublishOut.reqError rt e
      | (r0, none) =>
        let r : HttpRequest := { r0 with headers := hs }
        if dry then PublishOut.dryrunNoSend rt r
        else PublishOut.sent rt r (doRequest r).2) = some rt := by
  rcases nr with ⟨r0, e⟩
  cases e with
  | none =>
    by_cases hd : dry
    · simp only [if_pos hd]
      rfl
    · simp only [if_neg hd]
      rfl
  | some e' => rfl

theorem rtypeOf_publish (argv : ArgvT)
    (newRequest : String → String → String → HttpRequest × Option GoError)
    (doRequest : HttpRequest → String × Option GoError) (label s : String)
    (ip : IP) (hp : ParseIP s = some ip) :
    rtypeOf (publish argv newRequest doRequest label s) =
      some (if To4 ip = none then "AAAA" else "A") := by
  rw [publish_parsed argv newRequest doRequest label s ip hp]
  exact rtypeOf_branch (if To4 ip = none then "AAAA" else "A")
    [("Content-Type", "application/json"), ("X-Api-Key", argv.apikey)]
    argv.dryrun doRequest
    (newRequest "PUT" ("https://dns.api.gandi.net/api/v5/domains/" ++ argv.domain ++
      "/records/" ++ label ++ "/" ++ (if To4 ip = none then "AAAA" else "A"))
      ("\x7b\"rrset_ttl\": " ++ toString argv.ttl ++
        ", \"rrset_values\":[\"" ++ s ++ "\"]\x7d"))

/-- C9: `publish` selects record type "A" for an address parsing as IPv4 and
"AAAA" for an address parsing as a non-IPv4 IP, and returns nil without
building or performing any request when the address does not parse (the
`skip` outcome — a no-op, not an error). -/
theorem c9_publish_record_type (argv : ArgvT)
    (newRequest : String → String → String → HttpRequest × Option GoError)
    (doRequest : HttpRequest → String × Option GoError) (label s : String) :
    (∀ ip : IP, ParseIP s = some ip → To4 ip ≠ none →
      rtypeOf (publish argv newRequest doRequest label s) = some "A") ∧
    (∀ ip : IP, ParseIP s = some ip → To4 ip = none →
      rtypeOf (publish argv newRequest doRequest label s) = some "AAAA") ∧
    (ParseIP s = none → publish argv newRequest doRequest label s = .skip) := by
  refine ⟨?_, ?_, ?_⟩
  · intro ip hp h4
    rw [rtypeOf_publish argv newRequest doRequest label s ip hp, if_neg h4]
  · intro ip hp h4
    rw [rtypeOf_publish argv newRequest doRequest label s ip hp, if_pos h4]
  · intro hp
    unfold publish
    rw [hp]

/-- Sample argv for the publish witness. -/
def argvSample : ArgvT := ⟨[], "example.com", "key", "google", 300, 60000000000, false, 0⟩

/-- A `http.NewRequestWithContext` oracle that always succeeds. -/
def nrSample : String → String → String → HttpRequest × Option GoError :=
  fun m u b => (⟨m, u, b, []⟩, none)

/-- An HTTP round-trip oracle that always succeeds. -/
def drSample : HttpRequest → String × Option GoError := fun _ => ("", none)

/-- Witness for C9: publishing 203.0.113.5 selects "A", publishing
2001:db8::1 selects "AAAA", publishing an unparsable string is the `skip`
no-op. -/
theorem c9_publish_record_type_witness :
    rtypeOf (publish argvSample nrSample drSample "www" "203.0.113.5") = some "A" ∧
    rtypeOf (publish argvSample nrSample drSample "www" "2001:db8::1") = some "AAAA" ∧
    publish argvSample nrSample drSample "www" "bogus" = .skip := by
  refine ⟨?_, ?_, ?_⟩
  · exact (c9_publish_record_type argvSample nrSample drSample "www" "203.0.113.5").1
      (mkIPv4 203 0 113 5) (by decide) (by decide)
  · exact (c9_publish_record_type argvSample nrSample drSample "www" "2001:db8::1").2.1
      [0x20, 0x01, 0x0d, 0xb8, 0, 0, 0, 0, 0, 0, 0, 0, 0, 0, 0, 1] (by decide) (by decide)
  · exact (c9_publish_record_type argvSample nrSample drSample "www" "bogus").2.2 (by decide)

end Dnsup

